import Mathlib

/-!
Shallow embedding of the `universal-file-client` TypeScript package.

Strings are modelled as lists of characters; JavaScript `Date` values are
modelled by their epoch-millisecond value (`getTime`) as an `Int`; fallible
asynchronous operations are modelled as `Except` values; the mutable
`UniversalFileClient` object is modelled by explicit state passing: every
method becomes a function from the pre-state (plus the responses of the
underlying protocol handler, supplied as an oracle) to the post-state and
the method's outcome.
-/

namespace UFC

/-- TypeScript strings are modelled as lists of characters. -/
abbrev Str := List Char

/-- Abbreviation for turning a Lean string literal into the model type. -/
def s2l (s : String) : Str := s.data

/-- JS `String.prototype.includes(p)`: `p` occurs as a contiguous substring. -/
def hasInfix (p : Str) : Str → Bool
  | [] => p.isPrefixOf []
  | c :: t => p.isPrefixOf (c :: t) || hasInfix p t

/-- JS `s.split(pat)[0]`: the characters before the first occurrence of
`pat`, or all of `s` when `pat` does not occur. -/
def takeUntilInfix (p : Str) : Str → Str
  | [] => []
  | c :: t => if p.isPrefixOf (c :: t) then [] else c :: takeUntilInfix p t

/-- The closed protocol tag set (`src/types.ts`, `Protocol`). -/
inductive Protocol
  | ftp
  | ftps
  | sftp
  | http
  | https
deriving DecidableEq

/-! ### Protocol detector (`src/utils/protocol-detector.ts`) -/

/-- The scheme list used by the detector's unknown-scheme check:
`['ftp', 'ftps', 'sftp', 'http', 'https']`. -/
def knownSchemes : List Str :=
  [s2l "ftp", s2l "ftps", s2l "sftp", s2l "http", s2l "https"]

/-- Error message prefix of `throw new Error('Unsupported protocol: ' + protocol)`. -/
def unsupportedMsg : Str := s2l "Unsupported protocol: "

/-- Host-string branch of `ProtocolDetector.detect`: scheme-prefix checks,
the unknown-scheme check for hosts containing `://`, the substring
heuristics, and the final FTP fallback. -/
def detectHost (host : Str) : Except Str Protocol :=
  if (s2l "sftp://").isPrefixOf host || (s2l "sftp:").isPrefixOf host then .ok .sftp
  else if (s2l "ftps://").isPrefixOf host || (s2l "ftps:").isPrefixOf host then .ok .ftps
  else if (s2l "ftp://").isPrefixOf host || (s2l "ftp:").isPrefixOf host then .ok .ftp
  else if (s2l "https://").isPrefixOf host then .ok .https
  else if (s2l "http://").isPrefixOf host then .ok .http
  else if hasInfix (s2l "://") host
      && !(knownSchemes.contains (takeUntilInfix (s2l "://") host)) then
    .error (unsupportedMsg ++ takeUntilInfix (s2l "://") host)
  else if hasInfix (s2l "sftp") host then .ok .sftp
  else if hasInfix (s2l "https") host then .ok .https
  else if hasInfix (s2l "http") host then .ok .http
  else .ok .ftp

/-- `ProtocolDetector.detect(host, transferMode?)`.  A non-empty
`transferMode` is matched by prefix against the five tags first; on no
match (or no/empty hint) detection falls through to the host string. -/
def detect (host : Str) (transferMode : Option Str) : Except Str Protocol :=
  match transferMode with
  | some tm =>
    if tm ≠ [] then
      if (s2l "sftp").isPrefixOf tm then .ok .sftp
      else if (s2l "ftps").isPrefixOf tm then .ok .ftps
      else if (s2l "ftp").isPrefixOf tm then .ok .ftp
      else if (s2l "https").isPrefixOf tm then .ok .https
      else if (s2l "http").isPrefixOf tm then .ok .http
      else detectHost host
    else detectHost host
  | none => detectHost host

/-- First `replace` of `ProtocolDetector.normalizeHost`: the regex
`^(sftp|ftps|ftp|https|http):\/\/` removes one leading `scheme://`
(alternatives tried in source order). -/
def stripSchemeSlash (s : Str) : Str :=
  if (s2l "sftp://").isPrefixOf s then s.drop 7
  else if (s2l "ftps://").isPrefixOf s then s.drop 7
  else if (s2l "ftp://").isPrefixOf s then s.drop 6
  else if (s2l "https://").isPrefixOf s then s.drop 8
  else if (s2l "http://").isPrefixOf s then s.drop 7
  else s

/-- Second `replace` of `ProtocolDetector.normalizeHost`: the regex
`^(sftp|ftps|ftp|https|http):` removes one leading `scheme:`. -/
def stripSchemeColon (s : Str) : Str :=
  if (s2l "sftp:").isPrefixOf s then s.drop 5
  else if (s2l "ftps:").isPrefixOf s then s.drop 5
  else if (s2l "ftp:").isPrefixOf s then s.drop 4
  else if (s2l "https:").isPrefixOf s then s.drop 6
  else if (s2l "http:").isPrefixOf s then s.drop 5
  else s

/-- `ProtocolDetector.normalizeHost`: the two regex replaces applied in
sequence. -/
def normalizeHost (s : Str) : Str := stripSchemeColon (stripSchemeSlash s)

/-- Does the string begin with a `scheme://` prefix for one of the five
tags (the guard of `normalizeHost`'s first replace)? -/
def startsWithSchemeSlash (s : Str) : Bool :=
  (s2l "sftp://").isPrefixOf s || (s2l "ftps://").isPrefixOf s
    || (s2l "ftp://").isPrefixOf s || (s2l "https://").isPrefixOf s
    || (s2l "http://").isPrefixOf s

/-- Does the string begin with a `scheme:` prefix for one of the five
tags (the guard of `normalizeHost`'s second replace)? -/
def startsWithSchemeColon (s : Str) : Bool :=
  (s2l "sftp:").isPrefixOf s || (s2l "ftps:").isPrefixOf s
    || (s2l "ftp:").isPrefixOf s || (s2l "https:").isPrefixOf s
    || (s2l "http:").isPrefixOf s

/-! ### Node `path` (posix) helpers used by the sources -/

/-- Index of the last `'.'` in a name, if any. -/
def lastDotIdx : Str → Option Nat
  | [] => none
  | c :: t =>
    match lastDotIdx t with
    | some i => some (i + 1)
    | none => if c = '.' then some 0 else none

/-- `path.parse(b)`'s `name`/`ext` pair for a slash-free base name `b`:
the extension starts at the last dot, except when that dot is the first
character (hidden files) or the name is exactly `".."`. -/
def parseNameExt (b : Str) : Str × Str :=
  match lastDotIdx b with
  | none => (b, [])
  | some d =>
    if d = 0 then (b, [])
    else if b = ['.', '.'] then (b, [])
    else (b.take d, b.drop d)

/-- The last non-empty path segment (trailing slashes ignored), as used by
Node `path.basename` and by `path.parse` for the `base` part. -/
def lastSegment (p : Str) : Str :=
  let q := (p.reverse.dropWhile (fun c => c = '/')).reverse
  (q.reverse.takeWhile (fun c => c ≠ '/')).reverse

/-- Node `path.posix.basename(p)` (no extension argument). -/
def pathBasename (p : Str) : Str := lastSegment p

/-- `path.parse(p)`'s `name`/`ext` pair for a full path: computed on the
last segment. -/
def parsePathNameExt (p : Str) : Str × Str := parseNameExt (lastSegment p)

/-- Scan of Node `path.posix.dirname`: walking from the end of the string
(never looking at index 0), skip trailing slashes, then skip the base
segment; the first slash below it is the cut point. -/
def dirnameScan : Str → Bool → Option Nat
  | [], _ => none
  | c :: rest, matchedSlash =>
    if rest = [] then none
    else if c = '/' then
      if matchedSlash then dirnameScan rest true else some rest.length
    else dirnameScan rest false

/-- Node `path.posix.dirname`. -/
def dirname (p : Str) : Str :=
  if p = [] then ['.']
  else
    let hasRoot := p.head? = some '/'
    match dirnameScan p.reverse true with
    | none => if hasRoot then ['/'] else ['.']
    | some e => if hasRoot ∧ e = 1 then ['/', '/'] else p.take e

/-- Segment resolution of Node `path.posix.normalize`: drop empty and `.`
segments; `..` pops the previous segment, or is kept (relative paths) /
dropped (absolute paths) at the top. -/
def resolveSegs (allowAboveRoot : Bool) (segs : List Str) : List Str :=
  (segs.foldl (fun stack seg =>
    if seg = [] ∨ seg = ['.'] then stack
    else if seg = ['.', '.'] then
      match stack with
      | top :: rest =>
        if top ≠ ['.', '.'] then rest
        else if allowAboveRoot then seg :: stack else stack
      | [] => if allowAboveRoot then [seg] else []
    else seg :: stack) []).reverse

/-- Node `path.posix.normalize`. -/
def normalizePath (p : Str) : Str :=
  if p = [] then ['.']
  else
    let isAbs := p.head? = some '/'
    let trailingSep := p.getLast? = some '/'
    let segs := resolveSegs (!isAbs) (p.splitOn '/')
    let body := (segs.intersperse ['/']).flatten
    if body = [] then
      if isAbs then ['/']
      else if trailingSep then ['.', '/'] else ['.']
    else
      let body' := if trailingSep then body ++ ['/'] else body
      if isAbs then '/' :: body' else body'

/-- Node `path.posix.join` of two parts: non-empty parts joined with `'/'`
and normalized. -/
def pathJoin (a b : Str) : Str :=
  let parts := [a, b].filter (fun s => s ≠ [])
  if parts = [] then ['.']
  else normalizePath ((parts.intersperse ['/']).flatten)

/-! ### Data model (`src/types.ts`) -/

/-- The `type` field of `FileInfo`. -/
inductive FileKind
  | file
  | directory
deriving DecidableEq

/-- `FileInfo` (`src/types.ts`): `date` and `modifyTime` are epoch
milliseconds. -/
structure FileInfo where
  name : Str
  size : Int
  date : Int
  type : FileKind
  isDirectory : Bool
  modifyTime : Option Int
deriving DecidableEq

/-- `FileNameMatchOptions` (`src/types.ts`). -/
structure FileNameMatchOptions where
  basename : Str
  filepath : Str
  extname : Str
deriving DecidableEq

/-- `FileNameType` (`src/types.ts`); `'prefix'` is rendered `prefixMode`
because `prefix` is reserved in Lean. -/
inductive FileNameType
  | exact
  | prefixMode
  | regex
  | smart
deriving DecidableEq

/-! ### File matcher (`src/utils/file-matcher.ts`) -/

/-- JS `toLowerCase`, restricted to the character-wise lowering used by the
matcher. -/
def jsToLower (s : Str) : Str := s.map Char.toLower

/-- JS regex `\s` for the characters relevant here (space, tab, newline,
carriage return, vertical tab, form feed). -/
def isJsSpace (c : Char) : Bool :=
  c = ' ' || c = '\t' || c = '\n' || c = '\r' || c = Char.ofNat 11 || c = Char.ofNat 12

/-- `FileMatcher.normalizeString`: lower-case, then remove underscores,
whitespace and hyphens (`replace(/[_\s-]+/g, '')`; the final `trim()` is a
no-op once all whitespace has been removed). -/
def normalizeString (s : Str) : Str :=
  (jsToLower s).filter (fun c => !(c = '_' || c = '-' || isJsSpace c))

/-- Consume an optional single character `c` (regex `c?` where `c` cannot
start any continuation of the pattern). -/
def dropOpt (c : Char) : Str → Str
  | [] => []
  | x :: t => if x = c then t else x :: t

/-- Consume exactly `n` digits (regex `\d{n}`), returning the rest. -/
def takeDigits : Nat → Str → Option Str
  | 0, s => some s
  | _ + 1, [] => none
  | n + 1, c :: t => if c.isDigit then takeDigits n t else none

/-- Regex `/^_?\d{4}-?\d{2}-?\d{2}/`. -/
def patIsoDate (s : Str) : Bool :=
  match takeDigits 4 (dropOpt '_' s) with
  | none => false
  | some s1 =>
    match takeDigits 2 (dropOpt '-' s1) with
    | none => false
    | some s2 => (takeDigits 2 (dropOpt '-' s2)).isSome

/-- Regex `/^_?\d{2}-?\d{2}-?\d{4}/`. -/
def patEuroDate (s : Str) : Bool :=
  match takeDigits 2 (dropOpt '_' s) with
  | none => false
  | some s1 =>
    match takeDigits 2 (dropOpt '-' s1) with
    | none => false
    | some s2 => (takeDigits 4 (dropOpt '-' s2)).isSome

/-- Regex `/^_?\d{8}/`. -/
def patYmd8 (s : Str) : Bool := (takeDigits 8 (dropOpt '_' s)).isSome

/-- Regex `/^_?\d{6}/`. -/
def patYmd6 (s : Str) : Bool := (takeDigits 6 (dropOpt '_' s)).isSome

/-- Regex `/^_?\d{4}/`. -/
def patYear (s : Str) : Bool := (takeDigits 4 (dropOpt '_' s)).isSome

/-- Regex `/^_?\d{1,2}$/` (the only end-anchored pattern). -/
def patSmallNum (s : Str) : Bool :=
  match dropOpt '_' s with
  | [c] => c.isDigit
  | [c, d] => c.isDigit && d.isDigit
  | _ => false

/-- Regex `/^_?v?\d+(\.\d+)*/`: with no end anchor this just requires a
digit after the optional `probably-underscore` and optional `v`. -/
def patVersion (s : Str) : Bool :=
  match dropOpt 'v' (dropOpt '_' s) with
  | c :: _ => c.isDigit
  | [] => false

/-- Regex `/^_?\d{2}:\d{2}/`. -/
def patTime (s : Str) : Bool :=
  match takeDigits 2 (dropOpt '_' s) with
  | some (':' :: t) => (takeDigits 2 t).isSome
  | _ => false

/-- `FileMatcher.isDateTimeSuffix`: `patterns.some(p => p.test(suffix))`. -/
def isDateTimeSuffix (s : Str) : Bool :=
  patIsoDate s || patEuroDate s || patYmd8 s || patYmd6 s || patYear s
    || patSmallNum s || patVersion s || patTime s

/-- `FileMatcher.smartMatch`. -/
def smartMatch (fileName basename extname : Str) : Bool :=
  let fileBasename := (parseNameExt fileName).1
  let fileExt := (parseNameExt fileName).2
  if fileName = basename ++ extname then true
  else if extname ≠ [] ∧ jsToLower fileExt ≠ jsToLower extname then false
  else
    let normalizedFile := normalizeString fileBasename
    let normalizedTarget := normalizeString basename
    if normalizedFile = normalizedTarget then true
    else if normalizedTarget.isPrefixOf normalizedFile then
      isDateTimeSuffix (normalizedFile.drop normalizedTarget.length)
    else false

/-- `FileMatcher.doesFileNameMatch`.  The JS regex engine used by the
`regex` strategy (`new RegExp(basename).test(fileName)`, with invalid
patterns matching nothing) is an external library; it is abstracted as the
`regexTest` parameter. -/
def doesFileNameMatch (regexTest : Str → Str → Bool) (fileInfo : FileInfo)
    (options : FileNameMatchOptions) (fileNameType : FileNameType) : Bool :=
  match fileNameType with
  | .exact => fileInfo.name = pathBasename options.filepath
  | .prefixMode => options.basename.isPrefixOf fileInfo.name
  | .regex => regexTest options.basename fileInfo.name
  | .smart => smartMatch fileInfo.name options.basename options.extname

/-- `a.modifyTime || a.date.getTime()` in `findBestMatch`'s comparator:
JS `||` falls back on `0` (falsy) as well as on an absent field. -/
def modifyTimeOrDate (f : FileInfo) : Int :=
  match f.modifyTime with
  | some t => if t = 0 then f.date else t
  | none => f.date

/-- Stable insertion: the new element goes after every existing element it
may follow, so elements comparing equal keep their arrival order. -/
def stableInsert {α : Type} (le : α → α → Bool) (x : α) : List α → List α
  | [] => [x]
  | y :: t => if le y x then y :: stableInsert le x t else x :: y :: t

/-- Stable sort (model of JS `Array.prototype.sort`, which is stable):
insert the elements in order of arrival. -/
def stableSort {α : Type} (le : α → α → Bool) (l : List α) : List α :=
  l.foldl (fun acc x => stableInsert le x acc) []

/-- The comparator `(a, b) => bTime - aTime` of `findBestMatch`: `a` may
stay before `b` when the comparator is `≤ 0`. -/
def newestFirst (a b : FileInfo) : Bool := modifyTimeOrDate b ≤ modifyTimeOrDate a

/-- `FileMatcher.findBestMatch`: filter by the matching predicate; zero
matches → none; one → it; several → first element of the stable sort by
descending `modifyTimeOrDate` (JS comparator `bTime - aTime`). -/
def findBestMatch (regexTest : Str → Str → Bool) (files : List FileInfo)
    (options : FileNameMatchOptions) (fileNameType : FileNameType) : Option FileInfo :=
  let matchedFiles := files.filter (fun f => doesFileNameMatch regexTest f options fileNameType)
  match matchedFiles with
  | [] => none
  | [f] => some f
  | ms =>
    match stableSort newestFirst ms with
    | x :: _ => some x
    | [] => none

/-! ### Client orchestrator (`src/universal-ftp-client.ts`) -/

/-- `ConnectionConfig` (`src/types.ts`). -/
structure ConnectionConfig where
  host : Str
  username : Option Str
  password : Option Str
  port : Option Int
  secure : Option Bool
  directoryPath : Option Str
  timeout : Option Int
deriving DecidableEq

/-- `ListOptions` (`src/types.ts`). -/
structure ListOptions where
  pattern : Option Str
  fileNameType : Option FileNameType
  includeDirectories : Option Bool
deriving DecidableEq

/-- `DownloadOptions` (`src/types.ts`); numbers restricted to the naturals
actually used for counts/delays. -/
structure DownloadOptions where
  timeout : Option Nat
  retries : Option Nat
  retryDelay : Option Nat
deriving DecidableEq

/-- Which concrete adapter class `connect` constructs. -/
inductive AdapterKind
  | ftpAdapter
  | sftpAdapter
  | httpAdapter
deriving DecidableEq

/-- The `switch (protocol)` of `UniversalFileClient.connect`. -/
def adapterFor : Protocol → AdapterKind
  | .ftp => .ftpAdapter
  | .ftps => .ftpAdapter
  | .sftp => .sftpAdapter
  | .http => .httpAdapter
  | .https => .httpAdapter

/-- The three private fields of `UniversalFileClient`. -/
structure Client where
  adapter : Option AdapterKind
  protocol : Option Protocol
  connectionConfig : Option ConnectionConfig
deriving DecidableEq

/-- `new UniversalFileClient()`: all three fields null. -/
def Client.init : Client := ⟨none, none, none⟩

/-- `isConnected()`: `this.adapter !== null`. -/
def Client.isConnected (c : Client) : Bool := c.adapter ≠ none

/-- `getProtocol()`. -/
def Client.getProtocol (c : Client) : Option Protocol := c.protocol

/-- `getConnectionConfig()`. -/
def Client.getConnectionConfig (c : Client) : Option ConnectionConfig := c.connectionConfig

/-- Result of `HttpAdapter.getFileInfo` (`src/adapters/http-adapter.ts`):
its own failures are caught and turned into `{isJson: false, lastModified: null}`,
so the call itself is modelled as total. -/
structure HttpFileProbe where
  isJson : Bool
  lastModified : Option Int
deriving DecidableEq

/-- Bytes of a downloaded `Buffer`. -/
abbrev Bytes := List Nat

/-- Responses of the active protocol handler (the external transfer
library behind it), supplied as an oracle: each data operation of the
client consumes the corresponding entry.  `downloadRes` is indexed by the
attempt number because the retry loop calls the handler repeatedly. -/
structure HandlerOracle where
  connectRes : Except Str Unit
  disconnectRes : Except Str Unit
  listRes : Except Str (List FileInfo)
  downloadRes : Nat → Except Str Bytes
  uploadRes : Except Str Unit
  statRes : Except Str (Option FileInfo)
  existsRes : Except Str Bool
  lastModifiedRes : Except Str (Option Int)
  getFileInfoRes : HttpFileProbe

/-- `throw new Error('Not connected to any server')`. -/
def notConnectedMsg : Str := s2l "Not connected to any server"

/-- `UniversalFileClient.connect`: empty host fails first; protocol
detection fails on unsupported schemes; then `protocol`, `connectionConfig`
and `adapter` are assigned in source order *before* the handler's own
`connect` is awaited, so a handler failure propagates with those fields
already set. -/
def connectOp (c : Client) (o : HandlerOracle) (config : ConnectionConfig) :
    Client × Except Str Unit :=
  if config.host = [] then (c, .error (s2l "Host is required for connection"))
  else
    match detect config.host none with
    | .error e => (c, .error e)
    | .ok protocol =>
      let c1 : Client := { adapter := some (adapterFor protocol),
                           protocol := some protocol,
                           connectionConfig := some config }
      match o.connectRes with
      | .error e => (c1, .error e)
      | .ok _ => (c1, .ok ())

/-- `UniversalFileClient.disconnect`: no-op when no adapter is active;
otherwise the handler's `disconnect` is awaited first, so when it throws
the three fields are left untouched and the error propagates; when it
succeeds all three are nulled. -/
def disconnectOp (c : Client) (o : HandlerOracle) : Client × Except Str Unit :=
  match c.adapter with
  | none => (c, .ok ())
  | some _ =>
    match o.disconnectRes with
    | .error e => (c, .error e)
    | .ok _ => (⟨none, none, none⟩, .ok ())

/-- `UniversalFileClient.list`. -/
def listOp (c : Client) (o : HandlerOracle) (_pathArg : Str) (options : ListOptions) :
    Client × Except Str (List FileInfo) :=
  if c.adapter = none then (c, .error notConnectedMsg)
  else
    match o.listRes with
    | .error e => (c, .error (s2l "Failed to list directory: " ++ e))
    | .ok files =>
      if options.includeDirectories = some true then (c, .ok files)
      else (c, .ok (files.filter (fun f => !f.isDirectory)))

/-- `options.retries || 3` / `options.retryDelay || 1000`: JS `||` with a
number falls back on `0` (falsy) as well as on an absent field. -/
def jsOrNat (v : Option Nat) (dflt : Nat) : Nat :=
  match v with
  | some n => if n = 0 then dflt else n
  | none => dflt

/-- The `for (attempt = 0; attempt <= retries; attempt++)` loop of
`UniversalFileClient.download`, with `fuel` = remaining retries after the
current attempt `i`.  Returns the outcome, the list of waited backoff
delays (`retryDelay * 2 ** attempt` after each non-final failure), and the
number of attempts performed. -/
def attemptLoop (dl : Nat → Except Str Bytes) (retryDelay : Nat) :
    Nat → Nat → Except Str Bytes × List Nat × Nat
  | i, 0 => (dl i, [], 1)
  | i, fuel + 1 =>
    match dl i with
    | .ok b => (.ok b, [], 1)
    | .error _ =>
      let r := attemptLoop dl retryDelay (i + 1) fuel
      (r.1, retryDelay * 2 ^ i :: r.2.1, r.2.2 + 1)

/-- `UniversalFileClient.download`. -/
def downloadOp (c : Client) (o : HandlerOracle) (_remotePath : Str)
    (options : DownloadOptions) : Client × (Except Str Bytes × List Nat × Nat) :=
  if c.adapter = none then (c, (.error notConnectedMsg, [], 0))
  else
    let retries := jsOrNat options.retries 3
    let retryDelay := jsOrNat options.retryDelay 1000
    (c, attemptLoop o.downloadRes retryDelay 0 retries)

/-- `UniversalFileClient.upload`. -/
def uploadOp (c : Client) (o : HandlerOracle) (localPath remotePath : Str) :
    Client × Except Str Unit :=
  if c.adapter = none then (c, .error notConnectedMsg)
  else if localPath = [] ∨ remotePath = [] then
    (c, .error (s2l "Both local and remote paths are required for upload"))
  else
    match o.uploadRes with
    | .error e => (c, .error (s2l "Failed to upload file: " ++ e))
    | .ok _ => (c, .ok ())

/-- `UniversalFileClient.stat`. -/
def statOp (c : Client) (o : HandlerOracle) (filePath : Str) :
    Client × Except Str (Option FileInfo) :=
  if c.adapter = none then (c, .error notConnectedMsg)
  else if filePath = [] then
    (c, .error (s2l "File path is required for stat operation"))
  else
    match o.statRes with
    | .error e => (c, .error (s2l "Failed to get file stats: " ++ e))
    | .ok v => (c, .ok v)

/-- `UniversalFileClient.exists`: underlying failures are swallowed into
`false`. -/
def existsOp (c : Client) (o : HandlerOracle) (filePath : Str) :
    Client × Except Str Bool :=
  if c.adapter = none then (c, .error notConnectedMsg)
  else if filePath = [] then
    (c, .error (s2l "File path is required for exists check"))
  else
    match o.existsRes with
    | .error _ => (c, .ok false)
    | .ok b => (c, .ok b)

/-- `UniversalFileClient.lastModified`: the handler result is returned
with no wrapping. -/
def lastModifiedOp (c : Client) (o : HandlerOracle) (_filePath : Str) :
    Client × Except Str (Option Int) :=
  if c.adapter = none then (c, .error notConnectedMsg)
  else (c, o.lastModifiedRes)

/-- `UniversalFileClient.findFile`: exact `stat` first (short-circuit),
else list the parent directory (with default `ListOptions`) and run the
matcher; all failures inside the `try` are re-wrapped. -/
def findFileOp (regexTest : Str → Str → Bool) (c : Client) (o : HandlerOracle)
    (targetPath : Str) (fileNameType : FileNameType) :
    Client × Except Str (Option (FileInfo × Str)) :=
  if c.adapter = none then (c, .error notConnectedMsg)
  else
    let dirPath := dirname targetPath
    let basename := (parsePathNameExt targetPath).1
    let extname := (parsePathNameExt targetPath).2
    match (statOp c o targetPath).2 with
    | .error e => (c, .error (s2l "Failed to find file: " ++ e))
    | .ok (some exactFile) => (c, .ok (some (exactFile, targetPath)))
    | .ok none =>
      match (listOp c o dirPath ⟨none, none, none⟩).2 with
      | .error e => (c, .error (s2l "Failed to find file: " ++ e))
      | .ok files =>
        match findBestMatch regexTest files ⟨basename, targetPath, extname⟩ fileNameType with
        | some matchedFile => (c, .ok (some (matchedFile, pathJoin dirPath matchedFile.name)))
        | none => (c, .ok none)

/-- Result record of `checkForUpdates`. -/
structure UpdateResult where
  hasUpdate : Bool
  file : Option FileInfo
  actualPath : Option Str
deriving DecidableEq

/-- `UniversalFileClient.checkForUpdates`: no find result → no update; on
HTTP/HTTPS the probed content metadata decides (JSON → always updated,
else last-modified vs `lastKnownDate`, absent → no update); on the other
protocols the matched file's own `date` is compared. -/
def checkForUpdatesOp (regexTest : Str → Str → Bool) (c : Client) (o : HandlerOracle)
    (filePath : Str) (lastKnownDate : Int) (fileNameType : FileNameType) :
    Client × Except Str UpdateResult :=
  match (findFileOp regexTest c o filePath fileNameType).2 with
  | .error e => (c, .error e)
  | .ok none => (c, .ok ⟨false, none, none⟩)
  | .ok (some (file, actualPath)) =>
    if c.protocol = some .http ∨ c.protocol = some .https then
      let fileInfo := o.getFileInfoRes
      if fileInfo.isJson then (c, .ok ⟨true, some file, some actualPath⟩)
      else
        match fileInfo.lastModified with
        | none => (c, .ok ⟨false, some file, some actualPath⟩)
        | some t => (c, .ok ⟨decide (t > lastKnownDate), some file, some actualPath⟩)
    else (c, .ok ⟨decide (file.date > lastKnownDate), some file, some actualPath⟩)

/-! ### Concrete fixtures used by witnesses and counterexamples -/

/-- An oracle whose handler fails every call. -/
def errorOracle : HandlerOracle :=
  ⟨.error (s2l "boom"), .error (s2l "closed"), .error (s2l "lf"),
   fun _ => .error (s2l "df"), .error (s2l "uf"), .error (s2l "sf"),
   .error (s2l "ef"), .error (s2l "mf"), ⟨false, none⟩⟩

/-- A config whose host carries an FTP scheme. -/
def ftpConfig : ConnectionConfig :=
  ⟨s2l "ftp://files.example.com", none, none, none, none, none, none⟩

/-- A client in the Connected state over FTP. -/
def ftpClient : Client := ⟨some .ftpAdapter, some .ftp, some ftpConfig⟩

/-- A config whose host carries an HTTPS scheme. -/
def httpsConfig : ConnectionConfig :=
  ⟨s2l "https://api.example.com", none, none, none, none, none, none⟩

/-- A client in the Connected state over HTTPS. -/
def httpsClient : Client := ⟨some .httpAdapter, some .https, some httpsConfig⟩

/-- A sample remote file. -/
def sampleFile : FileInfo :=
  ⟨s2l "data.json", 10, 1700000000000, .file, false, some 1700000000000⟩

/-- A sample remote directory entry. -/
def sampleDir : FileInfo := ⟨s2l "logs", 0, 5, .directory, true, none⟩

/-- An oracle for a JSON resource over HTTP: `stat` finds the file, the
content probe reports JSON. -/
def jsonOracle : HandlerOracle :=
  ⟨.ok (), .ok (), .ok [], fun _ => .ok [], .ok (), .ok (some sampleFile),
   .ok true, .ok none, ⟨true, none⟩⟩

/-- An oracle whose download fails twice then succeeds. -/
def retryOracle : HandlerOracle :=
  ⟨.ok (), .ok (), .ok [], fun i => if i < 2 then .error (s2l "net") else .ok [1, 2],
   .ok (), .ok none, .ok false, .ok none, ⟨false, none⟩⟩

/-- A file whose `modifyTime` is present but `0` (JS-falsy) with a large
`date`. -/
def fileA : FileInfo := ⟨s2l "a.txt", 1, 100, .file, false, some 0⟩

/-- A file whose `modifyTime` is present and positive with a small `date`. -/
def fileB : FileInfo := ⟨s2l "b.txt", 1, 0, .file, false, some 50⟩

/-- The timestamp notion used by the spec's selection rule, taken verbatim
from its words: `modifyTime` when present, else the `date` field.  (The
code's comparator `modifyTimeOrDate` differs: JS `||` also falls back on a
present-but-zero `modifyTime`.) -/
def claimTimestamp (f : FileInfo) : Int :=
  match f.modifyTime with
  | some t => t
  | none => f.date

/-- An oracle whose handler succeeds on every call (with empty data). -/
def okOracle : HandlerOracle :=
  ⟨.ok (), .ok (), .ok [], fun _ => .ok [], .ok (), .ok none, .ok false,
   .ok none, ⟨false, none⟩⟩

/-- An oracle whose directory listing holds one file and one directory. -/
def listOracle : HandlerOracle :=
  ⟨.ok (), .ok (), .ok [sampleFile, sampleDir], fun _ => .ok [], .ok (),
   .ok none, .ok false, .ok none, ⟨false, none⟩⟩

/-! ## Theorems -/

/-- `List.isPrefixOf` agrees with the prefix order. -/
lemma isPrefixOfIff {p s : Str} : p.isPrefixOf s = true ↔ p <+: s :=
  List.isPrefixOf_iff_prefix

lemma litSftpSS : s2l "sftp://" = 's' :: 'f' :: 't' :: 'p' :: ':' :: '/' :: '/' :: [] := rfl

lemma litFtpsSS : s2l "ftps://" = 'f' :: 't' :: 'p' :: 's' :: ':' :: '/' :: '/' :: [] := rfl

lemma litFtpSS : s2l "ftp://" = 'f' :: 't' :: 'p' :: ':' :: '/' :: '/' :: [] := rfl

lemma litHttpsSS : s2l "https://" = 'h' :: 't' :: 't' :: 'p' :: 's' :: ':' :: '/' :: '/' :: [] := rfl

lemma litHttpSS : s2l "http://" = 'h' :: 't' :: 't' :: 'p' :: ':' :: '/' :: '/' :: [] := rfl

lemma litSftpC : s2l "sftp:" = 's' :: 'f' :: 't' :: 'p' :: ':' :: [] := rfl

lemma litFtpsC : s2l "ftps:" = 'f' :: 't' :: 'p' :: 's' :: ':' :: [] := rfl

lemma litFtpC : s2l "ftp:" = 'f' :: 't' :: 'p' :: ':' :: [] := rfl

lemma litHttpsC : s2l "https:" = 'h' :: 't' :: 't' :: 'p' :: 's' :: ':' :: [] := rfl

lemma litHttpC : s2l "http:" = 'h' :: 't' :: 't' :: 'p' :: ':' :: [] := rfl

lemma litCSS : s2l "://" = ':' :: '/' :: '/' :: [] := rfl

lemma litSS : s2l "//" = '/' :: '/' :: [] := rfl

lemma litSftp : s2l "sftp" = 's' :: 'f' :: 't' :: 'p' :: [] := rfl

lemma litFtps : s2l "ftps" = 'f' :: 't' :: 'p' :: 's' :: [] := rfl

lemma litFtp : s2l "ftp" = 'f' :: 't' :: 'p' :: [] := rfl

lemma litHttps : s2l "https" = 'h' :: 't' :: 't' :: 'p' :: 's' :: [] := rfl

lemma litHttp : s2l "http" = 'h' :: 't' :: 't' :: 'p' :: [] := rfl

/-! ### C1: state after a failed `connect` -/

/-- C1 (counterexample): the claim states that any `connect` failure
leaves the Client Disconnected with `protocol`/`config` unchanged; but
when the handler's own `connect` rejects, the fields have already been
assigned: starting from a fresh client, a failing handler connect leaves
`isConnected()` true and `getProtocol()` newly set. -/
theorem C1_counterexample :
    (connectOp Client.init errorOracle ftpConfig).2 = .error (s2l "boom") ∧
    (connectOp Client.init errorOracle ftpConfig).1.isConnected = true ∧
    (connectOp Client.init errorOracle ftpConfig).1.getProtocol = some .ftp ∧
    Client.init.getProtocol = none :=
  ⟨rfl, rfl, rfl, rfl⟩

/-- C1 (amended): a `connect` failing on an empty host or in protocol
detection leaves the Client unchanged; but when detection succeeds and the
handler's own connect fails, the error propagates with `adapter`,
`protocol` and `connectionConfig` already set to the new values. -/
theorem C1_connect_failure_state (c : Client) (o : HandlerOracle)
    (config : ConnectionConfig) :
    (config.host = [] →
      connectOp c o config = (c, .error (s2l "Host is required for connection"))) ∧
    (∀ e, config.host ≠ [] → detect config.host none = .error e →
      connectOp c o config = (c, .error e)) ∧
    (∀ p e, config.host ≠ [] → detect config.host none = .ok p →
      o.connectRes = .error e →
      connectOp c o config = (⟨some (adapterFor p), some p, some config⟩, .error e)) := by
  refine ⟨?_, ?_, ?_⟩
  · intro h
    simp [connectOp, h]
  · intro e hne hd
    simp [connectOp, hne, hd]
  · intro p e hne hd hc
    simp [connectOp, hne, hd, hc]

/-- C1 (witness): the amended statement at a concrete failing handler. -/
theorem C1_witness :
    connectOp Client.init errorOracle ftpConfig
      = (⟨some .ftpAdapter, some .ftp, some ftpConfig⟩, .error (s2l "boom")) :=
  (C1_connect_failure_state Client.init errorOracle ftpConfig).2.2 .ftp
    (s2l "boom") (by decide) rfl rfl

/-! ### C2: state after `disconnect` -/

/-- C2 (counterexample): the claim states that `disconnect` clears the
fields even when the handler's own disconnect fails; in fact the handler
is awaited *before* the fields are cleared, so a failing handler
disconnect leaves the Client Connected and the error propagates. -/
theorem C2_counterexample :
    disconnectOp ftpClient errorOracle = (ftpClient, .error (s2l "closed")) ∧
    ftpClient.isConnected = true ∧
    ftpClient.getProtocol = some .ftp :=
  ⟨rfl, rfl, rfl⟩

/-- C2 (amended): `disconnect` clears all three fields together and
transitions to Disconnected whenever the handler's disconnect succeeds
(and is a no-op when already Disconnected); when the handler's disconnect
fails, the error propagates and all three fields are left untouched — in
no case are the fields partially cleared. -/
theorem C2_disconnect_state (c : Client) (o : HandlerOracle) :
    (c.adapter = none → disconnectOp c o = (c, .ok ())) ∧
    (c.adapter ≠ none → o.disconnectRes = .ok () →
      disconnectOp c o = (⟨none, none, none⟩, .ok ())) ∧
    (∀ e, c.adapter ≠ none → o.disconnectRes = .error e →
      disconnectOp c o = (c, .error e)) := by
  refine ⟨?_, ?_, ?_⟩
  · intro h
    simp [disconnectOp, h]
  · intro h hd
    rcases ha : c.adapter with _ | a
    · exact absurd ha h
    · simp [disconnectOp, ha, hd]
  · intro e h hd
    rcases ha : c.adapter with _ | a
    · exact absurd ha h
    · simp [disconnectOp, ha, hd]

/-- C2 (witness): the amended statement at a concrete connected client. -/
theorem C2_witness :
    disconnectOp ftpClient okOracle = (⟨none, none, none⟩, .ok ()) :=
  (C2_disconnect_state ftpClient okOracle).2.1 (by decide) rfl

/-! ### C4: `list` filtering -/

/-- C4: over any handler listing, `list` with default options returns
exactly the non-directory entries, and with `includeDirectories: true`
returns the handler's list unchanged (same count and order). -/
theorem C4_list_filtering (c : Client) (o : HandlerOracle) (pathArg : Str)
    (files : List FileInfo) (h : c.adapter ≠ none) (hl : o.listRes = .ok files) :
    listOp c o pathArg ⟨none, none, none⟩
      = (c, .ok (files.filter (fun f => !f.isDirectory))) ∧
    (∀ pat fnt, listOp c o pathArg ⟨pat, fnt, some true⟩ = (c, .ok files)) := by
  constructor
  · simp [listOp, h, hl]
  · intro pat fnt
    simp [listOp, h, hl]

/-- C4 (witness): a listing with one file and one directory. -/
theorem C4_witness :
    listOp ftpClient listOracle [] ⟨none, none, none⟩
      = (ftpClient, .ok [sampleFile]) ∧
    listOp ftpClient listOracle [] ⟨none, none, some true⟩
      = (ftpClient, .ok [sampleFile, sampleDir]) :=
  have h := C4_list_filtering ftpClient listOracle [] [sampleFile, sampleDir]
    (by decide) rfl
  ⟨h.1, h.2 none none⟩

/-! ### C10: data operations never write the Client's fields -/

lemma listOp_fst (c : Client) (o : HandlerOracle) (p : Str) (opts : ListOptions) :
    (listOp c o p opts).1 = c := by
  unfold listOp
  split
  · rfl
  · split
    · rfl
    · split <;> rfl

lemma downloadOp_fst (c : Client) (o : HandlerOracle) (p : Str) (opts : DownloadOptions) :
    (downloadOp c o p opts).1 = c := by
  unfold downloadOp
  split <;> rfl

lemma uploadOp_fst (c : Client) (o : HandlerOracle) (lp rp : Str) :
    (uploadOp c o lp rp).1 = c := by
  unfold uploadOp
  split
  · rfl
  · split
    · rfl
    · split <;> rfl

lemma statOp_fst (c : Client) (o : HandlerOracle) (p : Str) :
    (statOp c o p).1 = c := by
  unfold statOp
  split
  · rfl
  · split
    · rfl
    · split <;> rfl

lemma existsOp_fst (c : Client) (o : HandlerOracle) (p : Str) :
    (existsOp c o p).1 = c := by
  unfold existsOp
  split
  · rfl
  · split
    · rfl
    · split <;> rfl

lemma lastModifiedOp_fst (c : Client) (o : HandlerOracle) (p : Str) :
    (lastModifiedOp c o p).1 = c := by
  unfold lastModifiedOp
  split <;> rfl

lemma findFileOp_fst (regexTest : Str → Str → Bool) (c : Client) (o : HandlerOracle)
    (p : Str) (fnt : FileNameType) : (findFileOp regexTest c o p fnt).1 = c := by
  unfold findFileOp
  dsimp only
  split
  · rfl
  · split
    · rfl
    · rfl
    · split
      · rfl
      · split <;> rfl

lemma checkForUpdatesOp_fst (regexTest : Str → Str → Bool) (c : Client)
    (o : HandlerOracle) (p : Str) (d : Int) (fnt : FileNameType) :
    (checkForUpdatesOp regexTest c o p d fnt).1 = c := by
  unfold checkForUpdatesOp
  dsimp only
  split
  · rfl
  · rfl
  · split
    · split
      · rfl
      · split <;> rfl
    · rfl

/-- C10: every data operation (`list`, `download`, `upload`, `stat`,
`exists`, `lastModified`, `findFile`, `checkForUpdates`) returns the
Client state it was given — only `connect` and `disconnect` write the
`adapter`/`protocol`/`connectionConfig` fields, so the observables are
identical before and after any data operation, succeeding or failing. -/
theorem C10_frame (regexTest : Str → Str → Bool) (c : Client) (o : HandlerOracle)
    (pathArg filePath localPath remotePath targetPath : Str) (lopts : ListOptions)
    (dopts : DownloadOptions) (lastKnown : Int) (fnt : FileNameType) :
    (listOp c o pathArg lopts).1 = c ∧
    (downloadOp c o remotePath dopts).1 = c ∧
    (uploadOp c o localPath remotePath).1 = c ∧
    (statOp c o filePath).1 = c ∧
    (existsOp c o filePath).1 = c ∧
    (lastModifiedOp c o filePath).1 = c ∧
    (findFileOp regexTest c o targetPath fnt).1 = c ∧
    (checkForUpdatesOp regexTest c o filePath lastKnown fnt).1 = c :=
  ⟨listOp_fst c o pathArg lopts, downloadOp_fst c o remotePath dopts,
   uploadOp_fst c o localPath remotePath, statOp_fst c o filePath,
   existsOp_fst c o filePath, lastModifiedOp_fst c o filePath,
   findFileOp_fst regexTest c o targetPath fnt,
   checkForUpdatesOp_fst regexTest c o filePath lastKnown fnt⟩

/-! ### C3: download retry loop -/

lemma attemptLoop_count_le (dl : Nat → Except Str Bytes) (d : Nat) :
    ∀ fuel i, (attemptLoop dl d i fuel).2.2 ≤ fuel + 1 := by
  intro fuel
  induction fuel with
  | zero =>
    intro i
    simp [attemptLoop]
  | succ n ih =>
    intro i
    cases h : dl i with
    | ok b => simp [attemptLoop, h]
    | error e =>
      have := ih (i + 1)
      simp only [attemptLoop, h]
      omega

lemma range_pow_shift (d i k : Nat) :
    (List.range (k + 1)).map (fun j => d * 2 ^ (i + j))
      = d * 2 ^ i :: (List.range k).map (fun j => d * 2 ^ (i + 1 + j)) := by
  rw [List.range_succ_eq_map]
  simp only [List.map_cons, List.map_map, Function.comp, Nat.add_zero]
  refine congrArg₂ _ rfl (List.map_congr_left ?_)
  intro j _
  have : i + (j + 1) = i + 1 + j := by omega
  simp [this]

lemma attemptLoop_success (dl : Nat → Except Str Bytes) (d : Nat) :
    ∀ fuel i k v, k ≤ fuel → (∀ j, j < k → ∃ e, dl (i + j) = .error e) →
      dl (i + k) = .ok v →
      attemptLoop dl d i fuel
        = (.ok v, (List.range k).map (fun j => d * 2 ^ (i + j)), k + 1) := by
  intro fuel
  induction fuel with
  | zero =>
    intro i k v hk hfail hok
    have hk0 : k = 0 := by omega
    subst hk0
    rw [Nat.add_zero] at hok
    simp [attemptLoop, hok]
  | succ n ih =>
    intro i k v hk hfail hok
    cases k with
    | zero =>
      rw [Nat.add_zero] at hok
      simp [attemptLoop, hok]
    | succ k' =>
      obtain ⟨e, he⟩ := hfail 0 (Nat.succ_pos k')
      rw [Nat.add_zero] at he
      have hr := ih (i + 1) k' v (by omega)
        (fun j hj => by
          obtain ⟨e', he'⟩ := hfail (j + 1) (by omega)
          exact ⟨e', by rw [← he']; congr 1; omega⟩)
        (by rw [← hok]; congr 1; omega)
      simp only [attemptLoop, he, hr, range_pow_shift]

lemma attemptLoop_allFail (dl : Nat → Except Str Bytes) (d : Nat) :
    ∀ fuel i, (∀ j, j ≤ fuel → ∃ e, dl (i + j) = .error e) →
      attemptLoop dl d i fuel
        = (dl (i + fuel), (List.range fuel).map (fun j => d * 2 ^ (i + j)), fuel + 1) := by
  intro fuel
  induction fuel with
  | zero =>
    intro i h
    simp [attemptLoop]
  | succ n ih =>
    intro i h
    obtain ⟨e, he⟩ := h 0 (by omega)
    rw [Nat.add_zero] at he
    have hr := ih (i + 1)
      (fun j hj => by
        obtain ⟨e', he'⟩ := h (j + 1) (by omega)
        exact ⟨e', by rw [← he']; congr 1; omega⟩)
    have hsh : i + 1 + n = i + (n + 1) := by omega
    simp only [attemptLoop, he, hr, range_pow_shift, hsh]

/-- C3 (counterexample): the claim predicts at most `r + 1` attempts for
`retries = r`; but `options.retries || 3` treats an explicit `retries: 0`
as absent (JS falsy), so with `retries = 0` and an always-failing handler
the download is attempted 4 times, not 1. -/
theorem C3_counterexample :
    (downloadOp ftpClient errorOracle [] ⟨none, some 0, some 1⟩).2.2.2 = 4 ∧
    ¬ (4 ≤ 0 + 1) :=
  ⟨rfl, by omega⟩

/-- C3 (amended): for explicit nonzero `retries = r` and `retryDelay = d`
(zero values fall back to the defaults 3 and 1000 through JS `||`), a
connected client's download makes at most `r + 1` handler attempts; if the
first `k` attempts fail and attempt `k` succeeds it stops after `k + 1`
attempts with that result, having waited `d * 2 ^ i` after each failed
attempt `i`; if all `r + 1` attempts fail it performs exactly `r + 1`
attempts and surfaces the last underlying error unmodified. -/
theorem C3_download_retry (c : Client) (o : HandlerOracle) (rp : Str)
    (opts : DownloadOptions) (r d : Nat) (hc : c.adapter ≠ none)
    (hr : opts.retries = some r) (hr0 : r ≠ 0)
    (hd : opts.retryDelay = some d) (hd0 : d ≠ 0) :
    (downloadOp c o rp opts).2.2.2 ≤ r + 1 ∧
    (∀ k v, k ≤ r → (∀ j, j < k → ∃ e, o.downloadRes j = .error e) →
      o.downloadRes k = .ok v →
      (downloadOp c o rp opts).2
        = (.ok v, (List.range k).map (fun j => d * 2 ^ j), k + 1)) ∧
    ((∀ j, j ≤ r → ∃ e, o.downloadRes j = .error e) →
      (downloadOp c o rp opts).2
        = (o.downloadRes r, (List.range r).map (fun j => d * 2 ^ j), r + 1)) := by
  have hdl : downloadOp c o rp opts = (c, attemptLoop o.downloadRes d 0 r) := by
    simp [downloadOp, hc, jsOrNat, hr, hd, hr0, hd0]
  refine ⟨?_, ?_, ?_⟩
  · rw [hdl]
    exact attemptLoop_count_le o.downloadRes d r 0
  · intro k v hk hfail hok
    rw [hdl]
    have h := attemptLoop_success o.downloadRes d r 0 k v hk
      (fun j hj => by simpa using hfail j hj) (by simpa using hok)
    simpa using h
  · intro hfail
    rw [hdl]
    have h := attemptLoop_allFail o.downloadRes d r 0
      (fun j hj => by simpa using hfail j hj)
    simpa using h

/-- C3 (witness): two failures then a success, with `retries = 3`,
`retryDelay = 10`: three attempts, backoffs 10 then 20, final success. -/
theorem C3_witness :
    (downloadOp ftpClient retryOracle [] ⟨none, some 3, some 10⟩).2
      = (.ok [1, 2], [10, 20], 3) := by
  have h := (C3_download_retry ftpClient retryOracle [] ⟨none, some 3, some 10⟩ 3 10
    (by decide) rfl (by decide) rfl (by decide)).2.1 2 [1, 2] (by omega)
    (fun j hj => ⟨s2l "net", by interval_cases j <;> rfl⟩) rfl
  exact h

/-! ### C5: `checkForUpdates` decision rule -/

/-- C5: when `findFile` locates a file, `checkForUpdates` decides as
follows.  Over HTTP/HTTPS: JSON content type → update reported regardless
of timestamps; otherwise no probed last-modified → no update; otherwise
update iff the probed last-modified is strictly newer than
`lastKnownDate`.  Over every other protocol: update iff the matched file's
`date` is strictly newer than `lastKnownDate`. -/
theorem C5_checkForUpdates (regexTest : Str → Str → Bool) (c : Client)
    (o : HandlerOracle) (filePath : Str) (lastKnown : Int) (fnt : FileNameType)
    (file : FileInfo) (actualPath : Str)
    (hfind : (findFileOp regexTest c o filePath fnt).2 = .ok (some (file, actualPath))) :
    ((c.protocol = some .http ∨ c.protocol = some .https) →
      (o.getFileInfoRes.isJson = true →
        (checkForUpdatesOp regexTest c o filePath lastKnown fnt).2
          = .ok ⟨true, some file, some actualPath⟩) ∧
      (o.getFileInfoRes.isJson = false → o.getFileInfoRes.lastModified = none →
        (checkForUpdatesOp regexTest c o filePath lastKnown fnt).2
          = .ok ⟨false, some file, some actualPath⟩) ∧
      (∀ t, o.getFileInfoRes.isJson = false → o.getFileInfoRes.lastModified = some t →
        (checkForUpdatesOp regexTest c o filePath lastKnown fnt).2
          = .ok ⟨decide (t > lastKnown), some file, some actualPath⟩)) ∧
    ((c.protocol ≠ some .http ∧ c.protocol ≠ some .https) →
      (checkForUpdatesOp regexTest c o filePath lastKnown fnt).2
        = .ok ⟨decide (file.date > lastKnown), some file, some actualPath⟩) := by
  unfold checkForUpdatesOp
  rw [hfind]
  dsimp only
  constructor
  · intro hp
    refine ⟨?_, ?_, ?_⟩
    · intro hj
      rw [if_pos hp]
      simp [hj]
    · intro hj hm
      rw [if_pos hp]
      simp [hj, hm]
    · intro t hj hm
      rw [if_pos hp]
      simp [hj, hm]
  · intro hp
    have hnp : ¬(c.protocol = some .http ∨ c.protocol = some .https) := by tauto
    rw [if_neg hnp]

/-- C5 (witness): a JSON resource over HTTPS reports an update even
against a far-future `lastKnownDate`. -/
theorem C5_witness :
    (checkForUpdatesOp (fun _ _ => false) httpsClient jsonOracle
        (s2l "/data.json") 9999999999999 .smart).2
      = .ok ⟨true, some sampleFile, some (s2l "/data.json")⟩ :=
  ((C5_checkForUpdates (fun _ _ => false) httpsClient jsonOracle
      (s2l "/data.json") 9999999999999 .smart sampleFile (s2l "/data.json")
      rfl).1 (Or.inr rfl)).1 rfl

/-! ### C8: `findBestMatch` selection -/

lemma stableInsert_perm {α : Type} (le : α → α → Bool) (x : α) (l : List α) :
    (stableInsert le x l).Perm (x :: l) := by
  induction l with
  | nil => exact List.Perm.refl _
  | cons y t ih =>
    cases h : le y x with
    | true =>
      simp only [stableInsert, h, if_true]
      exact (ih.cons y).trans (List.Perm.swap x y t)
    | false =>
      simp only [stableInsert, h]
      exact List.Perm.refl _

lemma foldl_stableInsert_perm {α : Type} (le : α → α → Bool) :
    ∀ (l acc : List α),
      (l.foldl (fun a x => stableInsert le x a) acc).Perm (acc ++ l) := by
  intro l
  induction l with
  | nil => intro acc; simp
  | cons x t ih =>
    intro acc
    refine (ih (stableInsert le x acc)).trans ?_
    refine (((stableInsert_perm le x acc).append_right t).trans
      List.perm_middle.symm)

lemma stableSort_perm {α : Type} (le : α → α → Bool) (l : List α) :
    (stableSort le l).Perm l := by
  simpa [stableSort] using foldl_stableInsert_perm le l []

lemma stableInsert_pairwise {α : Type} (le : α → α → Bool)
    (htrans : ∀ a b c, le a b = true → le b c = true → le a c = true)
    (htot : ∀ a b, le a b = true ∨ le b a = true) (x : α) :
    ∀ l : List α, l.Pairwise (fun a b => le a b = true) →
      (stableInsert le x l).Pairwise (fun a b => le a b = true) := by
  intro l
  induction l with
  | nil =>
    intro _
    simp [stableInsert]
  | cons y t ih =>
    intro hl
    rcases List.pairwise_cons.mp hl with ⟨hy, ht⟩
    cases h : le y x with
    | true =>
      simp only [stableInsert, h, if_true]
      refine List.pairwise_cons.mpr ⟨?_, ih ht⟩
      intro z hz
      rcases List.mem_cons.mp ((stableInsert_perm le x t).mem_iff.mp hz) with hzx | hzt
      · exact hzx ▸ h
      · exact hy z hzt
    | false =>
      simp only [stableInsert, h]
      have hxy : le x y = true := by
        rcases htot x y with h1 | h1
        · exact h1
        · rw [h1] at h
          exact absurd h (by simp)
      refine List.pairwise_cons.mpr ⟨?_, List.pairwise_cons.mpr ⟨hy, ht⟩⟩
      intro z hz
      rcases List.mem_cons.mp hz with hzy | hzt
      · exact hzy ▸ hxy
      · exact htrans x y z hxy (hy z hzt)

lemma stableSort_pairwise {α : Type} (le : α → α → Bool)
    (htrans : ∀ a b c, le a b = true → le b c = true → le a c = true)
    (htot : ∀ a b, le a b = true ∨ le b a = true) (l : List α) :
    (stableSort le l).Pairwise (fun a b => le a b = true) := by
  suffices h : ∀ (l acc : List α), acc.Pairwise (fun a b => le a b = true) →
      (l.foldl (fun a x => stableInsert le x a) acc).Pairwise
        (fun a b => le a b = true) by
    exact h l [] List.Pairwise.nil
  intro l
  induction l with
  | nil => intro acc hacc; simpa using hacc
  | cons x t ih =>
    intro acc hacc
    exact ih (stableInsert le x acc) (stableInsert_pairwise le htrans htot x acc hacc)

lemma newestFirst_trans (a b c : FileInfo) :
    newestFirst a b = true → newestFirst b c = true → newestFirst a c = true := by
  simp only [newestFirst, decide_eq_true_eq]
  omega

lemma newestFirst_total (a b : FileInfo) :
    newestFirst a b = true ∨ newestFirst b a = true := by
  simp only [newestFirst, decide_eq_true_eq]
  omega

/-- C8 (counterexample): the claim's timestamp is "`modifyTime` when
present, else `date`"; the code's comparator uses JS `||`, which also
falls back on a present-but-zero `modifyTime`.  With both files matching,
the code returns the file whose `modifyTime` is `0` but whose `date` is
large, although the other match has the strictly greater claim
timestamp. -/
theorem C8_counterexample :
    findBestMatch (fun _ _ => false) [fileA, fileB] ⟨[], [], []⟩ .prefixMode
      = some fileA ∧
    doesFileNameMatch (fun _ _ => false) fileB ⟨[], [], []⟩ .prefixMode = true ∧
    claimTimestamp fileA < claimTimestamp fileB :=
  ⟨rfl, rfl, by decide⟩

/-- C8 (amended): `findBestMatch` returns none when nothing matches and
the unique match when exactly one file matches; any returned file is a
match whose timestamp — `modifyTime` when present *and nonzero*, else
`date` — is greatest among all matching files; and with two or more
matches a file is always returned. -/
theorem C8_findBestMatch (regexTest : Str → Str → Bool) (files : List FileInfo)
    (opts : FileNameMatchOptions) (fnt : FileNameType) :
    (files.filter (fun f => doesFileNameMatch regexTest f opts fnt) = [] →
      findBestMatch regexTest files opts fnt = none) ∧
    (∀ f, files.filter (fun f => doesFileNameMatch regexTest f opts fnt) = [f] →
      findBestMatch regexTest files opts fnt = some f) ∧
    (2 ≤ (files.filter (fun f => doesFileNameMatch regexTest f opts fnt)).length →
      ∃ f, findBestMatch regexTest files opts fnt = some f ∧
        f ∈ files.filter (fun f => doesFileNameMatch regexTest f opts fnt) ∧
        ∀ g ∈ files.filter (fun f => doesFileNameMatch regexTest f opts fnt),
          modifyTimeOrDate g ≤ modifyTimeOrDate f) := by
  refine ⟨?_, ?_, ?_⟩
  · intro h
    unfold findBestMatch
    rw [h]
  · intro f h
    unfold findBestMatch
    rw [h]
  · intro hlen
    rcases hms : files.filter (fun f => doesFileNameMatch regexTest f opts fnt) with
      _ | ⟨a, _ | ⟨b, t2⟩⟩
    · rw [hms] at hlen
      simp at hlen
    · rw [hms] at hlen
      simp at hlen
    · have hperm := stableSort_perm newestFirst (a :: b :: t2)
      have hpw := stableSort_pairwise newestFirst newestFirst_trans
        newestFirst_total (a :: b :: t2)
      rcases hs : stableSort newestFirst (a :: b :: t2) with _ | ⟨x, rest⟩
      · rw [hs] at hperm
        exact absurd hperm.symm (by simp)
      · rw [hs] at hperm hpw
        rcases List.pairwise_cons.mp hpw with ⟨hx, _⟩
        refine ⟨x, ?_, ?_, ?_⟩
        · unfold findBestMatch
          rw [hms]
          dsimp only
          rw [hs]
        · exact hperm.mem_iff.mp (List.mem_cons_self x rest)
        · intro g hg
          rcases List.mem_cons.mp (hperm.mem_iff.mpr hg) with hgx | hgrest
          · exact hgx ▸ le_refl _
          · have := hx g hgrest
            simpa [newestFirst, decide_eq_true_eq] using this

/-- C8 (witness): the amended statement at two concrete matching files. -/
theorem C8_witness :
    ∃ f, findBestMatch (fun _ _ => false) [fileA, fileB] ⟨[], [], []⟩ .prefixMode
        = some f ∧
      f ∈ [fileA, fileB].filter
        (fun g => doesFileNameMatch (fun _ _ => false) g ⟨[], [], []⟩ .prefixMode) ∧
      ∀ g ∈ [fileA, fileB].filter
          (fun g => doesFileNameMatch (fun _ _ => false) g ⟨[], [], []⟩ .prefixMode),
        modifyTimeOrDate g ≤ modifyTimeOrDate f :=
  (C8_findBestMatch (fun _ _ => false) [fileA, fileB] ⟨[], [], []⟩
    .prefixMode).2.2 (by decide)

/-! ### C6: protocol detection -/

lemma notPrefixOfMono {p q h : Str} (sub : p <+: q) (hp : p.isPrefixOf h = false) :
    q.isPrefixOf h = false := by
  cases hq : q.isPrefixOf h with
  | false => rfl
  | true =>
    have hph := isPrefixOfIff.mpr (sub.trans (isPrefixOfIff.mp hq))
    rw [hp] at hph
    exact Bool.noConfusion hph

lemma takeUntil_httpsSS (rest : Str) :
    takeUntilInfix (s2l "://") (s2l "https://" ++ rest) = s2l "https" := by
  simp +decide [takeUntilInfix, List.isPrefixOf, litCSS, litHttpsSS, litHttps,
    List.cons_append]

lemma takeUntil_httpSS (rest : Str) :
    takeUntilInfix (s2l "://") (s2l "http://" ++ rest) = s2l "http" := by
  simp +decide [takeUntilInfix, List.isPrefixOf, litCSS, litHttpSS, litHttp,
    List.cons_append]

/-- C6 (counterexample): the claim says every host beginning with a
recognized `scheme:` form yields that scheme; but the detector has no
colon-only checks for `http:`/`https:` — those hosts fall through to the
substring heuristics, which test `"sftp"` first, so a host beginning with
`http:` can detect as sftp. -/
theorem C6_counterexample :
    detect (s2l "http:sftp.example.com") none = .ok .sftp ∧
    Protocol.sftp ≠ Protocol.http :=
  ⟨rfl, by decide⟩

/-- C6 (amended): without a mode hint, a host beginning `sftp:`, `ftps:`
or `ftp:` (which covers the corresponding `scheme://` forms) detects as
that tag; a host beginning `https://` or `http://` detects as that tag; a
host beginning `https:` detects as https provided it contains no `://`
and no `sftp` substring; a host beginning `http:` detects as http
provided it additionally contains no `https` substring; and a host
containing `://` whose text before the first `://` is not one of the
five tags — and which does not begin with `sftp:`, `ftps:` or `ftp:` —
fails with `Unsupported protocol:` naming that text. -/
theorem C6_detect :
    (∀ host, (s2l "sftp:").isPrefixOf host = true → detect host none = .ok .sftp) ∧
    (∀ host, (s2l "ftps:").isPrefixOf host = true → detect host none = .ok .ftps) ∧
    (∀ host, (s2l "ftp:").isPrefixOf host = true → detect host none = .ok .ftp) ∧
    (∀ host, (s2l "https://").isPrefixOf host = true → detect host none = .ok .https) ∧
    (∀ host, (s2l "http://").isPrefixOf host = true → detect host none = .ok .http) ∧
    (∀ host, (s2l "https:").isPrefixOf host = true →
      hasInfix (s2l "://") host = false → hasInfix (s2l "sftp") host = false →
      detect host none = .ok .https) ∧
    (∀ host, (s2l "http:").isPrefixOf host = true →
      hasInfix (s2l "://") host = false → hasInfix (s2l "sftp") host = false →
      hasInfix (s2l "https") host = false → detect host none = .ok .http) ∧
    (∀ host, hasInfix (s2l "://") host = true →
      knownSchemes.contains (takeUntilInfix (s2l "://") host) = false →
      (s2l "sftp:").isPrefixOf host = false → (s2l "ftps:").isPrefixOf host = false →
      (s2l "ftp:").isPrefixOf host = false →
      detect host none = .error (unsupportedMsg ++ takeUntilInfix (s2l "://") host)) := by
  refine ⟨?_, ?_, ?_, ?_, ?_, ?_, ?_, ?_⟩
  · intro host h
    obtain ⟨rest, rfl⟩ := isPrefixOfIff.mp h
    simp +decide [detect, detectHost, litSftpC, litSftpSS, List.cons_append,
      List.isPrefixOf]
  · intro host h
    obtain ⟨rest, rfl⟩ := isPrefixOfIff.mp h
    simp +decide [detect, detectHost, litSftpC, litSftpSS, litFtpsC, litFtpsSS,
      List.cons_append, List.isPrefixOf]
  · intro host h
    obtain ⟨rest, rfl⟩ := isPrefixOfIff.mp h
    simp +decide [detect, detectHost, litSftpC, litSftpSS, litFtpsC, litFtpsSS,
      litFtpC, litFtpSS, List.cons_append, List.isPrefixOf]
  · intro host h
    obtain ⟨rest, rfl⟩ := isPrefixOfIff.mp h
    simp +decide [detect, detectHost, litSftpC, litSftpSS, litFtpsC, litFtpsSS,
      litFtpC, litFtpSS, litHttpsSS, List.cons_append, List.isPrefixOf]
  · intro host h
    obtain ⟨rest, rfl⟩ := isPrefixOfIff.mp h
    simp +decide [detect, detectHost, litSftpC, litSftpSS, litFtpsC, litFtpsSS,
      litFtpC, litFtpSS, litHttpsSS, litHttpSS, List.cons_append, List.isPrefixOf]
  · intro host hpre hinf hsftp
    obtain ⟨rest, rfl⟩ := isPrefixOfIff.mp hpre
    simp +decide [hasInfix, List.isPrefixOf, litCSS, litSftp, litHttpsC,
      List.cons_append] at hinf hsftp
    simp +decide [detect, detectHost, hasInfix, litSftpC, litSftpSS, litFtpsC,
      litFtpsSS, litFtpC, litFtpSS, litHttpsSS, litHttpSS, litHttpsC, litCSS,
      litSftp, litHttps, litHttp, List.cons_append, List.isPrefixOf, hinf, hsftp]
  · intro host hpre hinf hsftp hhttps
    obtain ⟨rest, rfl⟩ := isPrefixOfIff.mp hpre
    simp +decide [hasInfix, List.isPrefixOf, litCSS, litSftp, litHttps, litHttpC,
      List.cons_append] at hinf hsftp hhttps
    simp +decide [detect, detectHost, hasInfix, litSftpC, litSftpSS, litFtpsC,
      litFtpsSS, litFtpC, litFtpSS, litHttpsSS, litHttpSS, litHttpsC, litHttpC,
      litCSS, litSftp, litHttps, litHttp, List.cons_append, List.isPrefixOf,
      hinf, hsftp, hhttps]
  · intro host hinf hcon h1 h2 h3
    have h1s : (s2l "sftp://").isPrefixOf host = false := notPrefixOfMono (by decide) h1
    have h2s : (s2l "ftps://").isPrefixOf host = false := notPrefixOfMono (by decide) h2
    have h3s : (s2l "ftp://").isPrefixOf host = false := notPrefixOfMono (by decide) h3
    have h4 : (s2l "https://").isPrefixOf host = false := by
      cases h : (s2l "https://").isPrefixOf host with
      | false => rfl
      | true =>
        obtain ⟨rest, rfl⟩ := isPrefixOfIff.mp h
        rw [takeUntil_httpsSS] at hcon
        exact absurd hcon (by decide)
    have h5 : (s2l "http://").isPrefixOf host = false := by
      cases h : (s2l "http://").isPrefixOf host with
      | false => rfl
      | true =>
        obtain ⟨rest, rfl⟩ := isPrefixOfIff.mp h
        rw [takeUntil_httpSS] at hcon
        exact absurd hcon (by decide)
    have hmem : takeUntilInfix (s2l "://") host ∉ knownSchemes := by
      intro hm
      have helem := List.elem_iff.mpr hm
      rw [show List.elem (takeUntilInfix (s2l "://") host) knownSchemes
          = knownSchemes.contains (takeUntilInfix (s2l "://") host) from rfl,
        hcon] at helem
      exact Bool.noConfusion helem
    simp [detect, detectHost, h1, h2, h3, h1s, h2s, h3s, h4, h5, hinf, hcon, hmem]

/-- C6 (witness): a scheme-prefixed host detects as its tag, and an
unrecognized scheme with `://` fails naming that scheme. -/
theorem C6_witness :
    detect (s2l "sftp://example.com") none = .ok .sftp ∧
    detect (s2l "gopher://x") none = .error (s2l "Unsupported protocol: gopher") :=
  ⟨C6_detect.1 (s2l "sftp://example.com") (by decide),
   C6_detect.2.2.2.2.2.2.2 (s2l "gopher://x") (by decide) (by decide) (by decide)
     (by decide) (by decide)⟩

/-! ### C7: smart matching -/

/-- C7: a file name smart-matches the target iff it equals
`basename + extname` literally, or else its extension agrees with a
non-empty `extname` case-insensitively (a mismatched extension never
matches, even on an exact base-name match) and the normalized file base
name either equals the normalized target or extends it by one of the fixed
date/version suffix patterns; normalization lower-cases and removes
spaces, underscores and hyphens. -/
theorem C7_smartMatch_spec (fileName basename extname : Str) :
    smartMatch fileName basename extname = true ↔
      (fileName = basename ++ extname ∨
        ((extname ≠ [] → jsToLower (parseNameExt fileName).2 = jsToLower extname) ∧
          (normalizeString (parseNameExt fileName).1 = normalizeString basename ∨
            ((normalizeString basename).isPrefixOf
                (normalizeString (parseNameExt fileName).1) = true ∧
              isDateTimeSuffix ((normalizeString (parseNameExt fileName).1).drop
                (normalizeString basename).length) = true)))) := by
  unfold smartMatch
  dsimp only
  by_cases h1 : fileName = basename ++ extname
  · simp [h1]
  · rw [if_neg h1]
    by_cases h2 : extname ≠ [] ∧ jsToLower (parseNameExt fileName).2 ≠ jsToLower extname
    · rw [if_pos h2]
      simp only [Bool.false_eq_true, false_iff]
      rintro (h | ⟨hext, _⟩)
      · exact h1 h
      · exact h2.2 (hext h2.1)
    · rw [if_neg h2]
      push_neg at h2
      by_cases h3 : normalizeString (parseNameExt fileName).1 = normalizeString basename
      · rw [if_pos h3]
        simp only [true_iff]
        exact Or.inr ⟨h2, Or.inl h3⟩
      · rw [if_neg h3]
        cases h4 : List.isPrefixOf (normalizeString basename)
            (normalizeString (parseNameExt fileName).1) with
        | true =>
          rw [if_pos rfl]
          constructor
          · intro hd
            exact Or.inr ⟨h2, Or.inr ⟨rfl, hd⟩⟩
          · rintro (h | ⟨_, h | ⟨_, hd⟩⟩)
            · exact absurd h h1
            · exact absurd h h3
            · exact hd
        | false =>
          rw [if_neg (by simp)]
          simp only [Bool.false_eq_true, false_iff]
          rintro (h | ⟨_, h | ⟨hp, _⟩⟩)
          · exact absurd h h1
          · exact absurd h h3
          · exact absurd hp (by simp)

/-! ### C9: `normalizeHost` -/

/-- C9 (counterexample): the claim says exactly one leading scheme prefix
is stripped and the remainder left untouched; but the two replaces run in
sequence, so `"ftp://ftp:rest"` loses both prefixes instead of becoming
`"ftp:rest"`. -/
theorem C9_counterexample :
    normalizeHost (s2l "ftp://ftp:rest") = s2l "rest" ∧
    s2l "rest" ≠ s2l "ftp:rest" :=
  ⟨rfl, by decide⟩

/-- C9 (amended): `normalizeHost` strips a leading `scheme://` prefix and
then also a leading `scheme:` prefix of the *result*.  Hence: a
`scheme://` host whose remainder does not itself start with a `scheme:`
prefix maps to the remainder; a `scheme:` host whose remainder does not
start with `//` maps to the remainder; a host with no scheme prefix is
unchanged; and the spec's example holds. -/
theorem C9_normalizeHost :
    (∀ t rest, t ∈ knownSchemes → startsWithSchemeColon rest = false →
      normalizeHost (t ++ s2l "://" ++ rest) = rest) ∧
    (∀ t rest, t ∈ knownSchemes → (s2l "//").isPrefixOf rest = false →
      normalizeHost (t ++ s2l ":" ++ rest) = rest) ∧
    (∀ s, startsWithSchemeSlash s = false → startsWithSchemeColon s = false →
      normalizeHost s = s) ∧
    normalizeHost (s2l "sftp://example.com:22") = s2l "example.com:22" := by
  refine ⟨?_, ?_, ?_, rfl⟩
  · intro t rest ht hcol
    simp only [startsWithSchemeColon, Bool.or_eq_false_iff, litSftpC, litFtpsC, litFtpC,
      litHttpsC, litHttpC] at hcol
    obtain ⟨⟨⟨⟨h1, h2⟩, h3⟩, h4⟩, h5⟩ := hcol
    simp only [knownSchemes, List.mem_cons, List.not_mem_nil, or_false] at ht
    rcases ht with rfl | rfl | rfl | rfl | rfl <;>
      simp +decide [normalizeHost, stripSchemeSlash, stripSchemeColon, litSftpSS,
        litFtpsSS, litFtpSS, litHttpsSS, litHttpSS, litSftpC, litFtpsC, litFtpC,
        litHttpsC, litHttpC, litFtp, litFtps, litSftp, litHttp, litHttps, litCSS,
        List.isPrefixOf, List.cons_append, h1, h2, h3, h4, h5]
  · intro t rest ht hss
    simp only [litSS, List.isPrefixOf] at hss
    simp only [knownSchemes, List.mem_cons, List.not_mem_nil, or_false] at ht
    rcases ht with rfl | rfl | rfl | rfl | rfl <;>
      simp +decide [normalizeHost, stripSchemeSlash, stripSchemeColon, litSftpSS,
        litFtpsSS, litFtpSS, litHttpsSS, litHttpSS, litSftpC, litFtpsC, litFtpC,
        litHttpsC, litHttpC, litFtp, litFtps, litSftp, litHttp, litHttps,
        List.isPrefixOf, List.cons_append, hss,
        show s2l ":" = [':'] from rfl]
  · intro s hss hcol
    simp only [startsWithSchemeSlash, Bool.or_eq_false_iff] at hss
    obtain ⟨⟨⟨⟨g1, g2⟩, g3⟩, g4⟩, g5⟩ := hss
    simp only [startsWithSchemeColon, Bool.or_eq_false_iff] at hcol
    obtain ⟨⟨⟨⟨h1, h2⟩, h3⟩, h4⟩, h5⟩ := hcol
    simp [normalizeHost, stripSchemeSlash, stripSchemeColon,
      g1, g2, g3, g4, g5, h1, h2, h3, h4, h5]

/-- C9 (witness): the amended statement at the spec's example and a
colon-form host. -/
theorem C9_witness :
    normalizeHost (s2l "sftp" ++ s2l "://" ++ s2l "example.com:22")
      = s2l "example.com:22" ∧
    normalizeHost (s2l "http" ++ s2l ":" ++ s2l "api.example.com")
      = s2l "api.example.com" :=
  ⟨(C9_normalizeHost).1 (s2l "sftp") (s2l "example.com:22") (by decide) (by decide),
   (C9_normalizeHost).2.1 (s2l "http") (s2l "api.example.com") (by decide) (by decide)⟩

end UFC
